import Mathlib

/-!
Verification of the pygeosolve constraint model (`pygeosolve/constraints.py`).

The constraint classes themselves (`AbstractConstraint`, `LineLengthConstraint`,
`AngularConstraint`, `PointToPointDistanceConstraint`) are embedded from the
source file. The geometry and parameter primitives they build on
(`pygeosolve/geometry.py`, `pygeosolve/parameters.py`, `pygeosolve/tools.py`)
are not part of the available source tree, so those are modelled from the
specification, as marked in the individual doc comments.

Real-valued (`ℝ`) arithmetic models Python float arithmetic; where the
behaviour of IEEE NaN is itself the property under study, the type `PyFloat`
below adds an explicit NaN point to `ℝ`.
-/

/-- Modelled from the spec: `pygeosolve/parameters.py` (not under `src/`).
A `Parameter` is a single mutable scalar; identity matters (two parameters
with equal value are distinct objects), so the model carries an object
identity `id` next to the numeric `value`. -/
structure Parameter where
  id : ℕ
  value : ℝ

/-- Modelled from the spec: `pygeosolve/geometry.py` (not under `src/`).
A `Point` references exactly two parameters, its x and y coordinates. -/
structure Point where
  x : Parameter
  y : Parameter

/-- Modelled from the spec: `Point` subtraction is the component-wise
difference of the current parameter values, producing an unparameterized
vector. -/
def Point.sub (a b : Point) : ℝ × ℝ :=
  (a.x.value - b.x.value, a.y.value - b.y.value)

/-- Modelled from the spec: the Euclidean magnitude of an unparameterized
vector (the `abs` of a vector-like `Point` in `geometry.py`). -/
noncomputable def vecAbs (v : ℝ × ℝ) : ℝ :=
  Real.sqrt (v.1 ^ 2 + v.2 ^ 2)

/-- Modelled from the spec: `pygeosolve/geometry.py` `Line`, an ordered pair
of two points (start, end). -/
structure Line where
  start : Point
  «end» : Point

/-- Modelled from the spec: `Line.vector()` is end minus start. -/
def Line.vector (l : Line) : ℝ × ℝ :=
  Point.sub l.«end» l.start

/-- Modelled from the spec: `Line.hypot()` is the Euclidean length of the
line, the magnitude of its vector. -/
noncomputable def Line.hypot (l : Line) : ℝ :=
  vecAbs l.vector

/-- A Python float: either NaN or a real value. Used where the NaN
behaviour of a comparison is the property under study. -/
inductive PyFloat where
  | nan : PyFloat
  | num : ℝ → PyFloat

/-- The Python `<` comparison on floats: any comparison involving NaN is
false. -/
def PyFloat.lt : PyFloat → PyFloat → Prop
  | .num a, .num b => a < b
  | .nan, _ => False
  | .num _, .nan => False

noncomputable instance instDecidablePyFloatLt (a b : PyFloat) : Decidable (PyFloat.lt a b) :=
  match a, b with
  | .num a, .num b => inferInstanceAs (Decidable (a < b))
  | .nan, .nan => isFalse (fun h => h)
  | .nan, .num _ => isFalse (fun h => h)
  | .num _, .nan => isFalse (fun h => h)

/-- The `LineLengthConstraint.length` setter (`constraints.py` lines
105-114): cast to float, raise `ValueError` when the value is `< 0`,
otherwise store it. -/
noncomputable def length_setter (v : PyFloat) : Except String PyFloat :=
  if PyFloat.lt v (.num 0) then .error "Length must be >= 0" else .ok v

/-- `LineLengthConstraint` (`constraints.py` lines 83-131): one line
primitive plus the validated target length. -/
structure LineLengthConstraint where
  line : Line
  length : ℝ

/-- `LineLengthConstraint.__init__` (`constraints.py` lines 86-98): stores
the single line primitive and assigns `length` through the validating
setter. -/
noncomputable def LineLengthConstraint.init (line : Line) (length : PyFloat) :
    Except String (Line × PyFloat) :=
  (length_setter length).map (fun v => (line, v))

/-- `LineLengthConstraint.error` (`constraints.py` line 131):
`np.abs(self.line.hypot() - self.length)`. -/
noncomputable def LineLengthConstraint.error (c : LineLengthConstraint) : ℝ :=
  |c.line.hypot - c.length|

/-- The dot product of two 2-D vectors. -/
def dot2 (u v : ℝ × ℝ) : ℝ :=
  u.1 * v.1 + u.2 * v.2

/-- Modelled from the spec: `tools.angle_between` (`pygeosolve/tools.py`,
not under `src/`). The angle in degrees between the two line direction
vectors (each taken start→end) via the standard dot-product/arccos formula;
per the spec's error-handling design, the degenerate case of a zero-length
direction vector is guarded and yields the maximal-error sentinel 180
instead of a division-by-zero crash. -/
noncomputable def angle_between (la lb : Line) : ℝ :=
  if la.hypot = 0 ∨ lb.hypot = 0 then 180
  else Real.arccos (dot2 la.vector lb.vector / (la.hypot * lb.hypot)) * 180 / Real.pi

/-- `AngularConstraint` (`constraints.py` lines 133-183): two line
primitives plus the target angle in degrees (stored without validation). -/
structure AngularConstraint where
  line_a : Line
  line_b : Line
  angle : ℝ

/-- `AngularConstraint.error` (`constraints.py` line 183):
`np.abs(tools.angle_between(self.line_a, self.line_b) - self.angle)`. -/
noncomputable def AngularConstraint.error (c : AngularConstraint) : ℝ :=
  |angle_between c.line_a c.line_b - c.angle|

/-- `PointToPointDistanceConstraint` (`constraints.py` lines 185-234): two
point primitives plus the target distance (stored without validation). -/
structure PointToPointDistanceConstraint where
  point_a : Point
  point_b : Point
  distance : ℝ

/-- `PointToPointDistanceConstraint.error` (`constraints.py` line 234):
`np.abs((self.point_a - self.point_b).abs() - self.distance)`. -/
noncomputable def PointToPointDistanceConstraint.error
    (c : PointToPointDistanceConstraint) : ℝ :=
  |vecAbs (Point.sub c.point_a c.point_b) - c.distance|

/-- A primitive is either a point or a line (`geometry.Primitive`
variants). -/
inductive Primitive where
  | point : Point → Primitive
  | line : Line → Primitive

/-- Modelled from the spec: `Primitive.points` — a point is trivially its
own point list, a line's points are `[start, end]`. -/
def Primitive.points : Primitive → List Point
  | .point p => [p]
  | .line l => [l.start, l.«end»]

/-- `AbstractConstraint.points` (`constraints.py` lines 45-60): the lists
of points of each primitive combined with `functools.reduce(operator.add, ·)`.
`reduce` over an empty list raises, hence the `Option`. -/
def AbstractConstraint.points (primitives : List Primitive) : Option (List Point) :=
  match primitives.map Primitive.points with
  | [] => none
  | x :: xs => some (xs.foldl (· ++ ·) x)

/-- One step of the `params` accumulation: append the parameter unless a
parameter of the same identity is already present (`if point.x not in
params: params.append(point.x)`; membership is by object identity per the
spec, `parameters.py` not being under `src/`). -/
def addIfAbsent (acc : List Parameter) (q : Parameter) : List Parameter :=
  if acc.any (fun r => r.id == q.id) then acc else acc ++ [q]

/-- `AbstractConstraint.params` (`constraints.py` lines 62-81): walk the
constraint's points in order, appending each point's x then y parameter
when not already present. -/
def AbstractConstraint.params (pts : List Point) : List Parameter :=
  pts.foldl (fun acc p => addIfAbsent (addIfAbsent acc p.x) p.y) []

/-- The x and y parameters of a list of points, flattened in order. -/
def xyFlatten (pts : List Point) : List Parameter :=
  pts.flatMap (fun p => [p.x, p.y])

/-! ### Concrete geometry fixtures -/

/-- The origin point (0, 0). -/
def pO : Point := ⟨⟨0, 0⟩, ⟨1, 0⟩⟩

/-- The point (3, 4). -/
def p34 : Point := ⟨⟨2, 3⟩, ⟨3, 4⟩⟩

/-- The point (1, 1). -/
def p11 : Point := ⟨⟨4, 1⟩, ⟨5, 1⟩⟩

/-- The point (1, 0). -/
def pX : Point := ⟨⟨6, 1⟩, ⟨7, 0⟩⟩

/-- A line from (0, 0) to (3, 4). -/
def line34 : Line := ⟨pO, p34⟩

/-- A unit line from (0, 0) along the x axis. -/
def xline : Line := ⟨pO, pX⟩

/-- A degenerate line from (0, 0) to itself. -/
def zline : Line := ⟨pO, pO⟩

lemma line34_hypot : line34.hypot = 5 := by
  show Real.sqrt (((3 : ℝ) - 0) ^ 2 + ((4 : ℝ) - 0) ^ 2) = 5
  rw [show ((3 : ℝ) - 0) ^ 2 + ((4 : ℝ) - 0) ^ 2 = 5 ^ 2 by norm_num]
  exact Real.sqrt_sq (by norm_num)

lemma xline_hypot : xline.hypot = 1 := by
  show Real.sqrt (((1 : ℝ) - 0) ^ 2 + ((0 : ℝ) - 0) ^ 2) = 1
  rw [show ((1 : ℝ) - 0) ^ 2 + ((0 : ℝ) - 0) ^ 2 = 1 by norm_num]
  exact Real.sqrt_one

lemma zline_hypot : zline.hypot = 0 := by
  show Real.sqrt (((0 : ℝ) - 0) ^ 2 + ((0 : ℝ) - 0) ^ 2) = 0
  rw [show ((0 : ℝ) - 0) ^ 2 + ((0 : ℝ) - 0) ^ 2 = 0 by norm_num]
  exact Real.sqrt_zero

/-! ### C1 -/

/-- C1: for every line and every non-negative target length L, the length
constraint's error is the absolute difference between the line's Euclidean
length and L; for the line from (0,0) to (3,4) the error is 0 at target 5
and 1 at target 4. -/
theorem lineLengthConstraint_error_spec :
    (∀ (l : Line) (L : ℝ), 0 ≤ L →
      LineLengthConstraint.error ⟨l, L⟩ =
        |Real.sqrt ((l.«end».x.value - l.start.x.value) ^ 2 +
            (l.«end».y.value - l.start.y.value) ^ 2) - L|) ∧
    LineLengthConstraint.error ⟨line34, 5⟩ = 0 ∧
    LineLengthConstraint.error ⟨line34, 4⟩ = 1 := by
  refine ⟨fun l L _ => rfl, ?_, ?_⟩
  · show |line34.hypot - 5| = 0
    rw [line34_hypot]
    norm_num
  · show |line34.hypot - 4| = 1
    rw [line34_hypot]
    norm_num

/-- Witness for C1 at the concrete line from (0,0) to (3,4) and target 5. -/
theorem lineLengthConstraint_error_spec_witness :
    (0 : ℝ) ≤ 5 ∧
    LineLengthConstraint.error ⟨line34, 5⟩ =
      |Real.sqrt ((line34.«end».x.value - line34.start.x.value) ^ 2 +
          (line34.«end».y.value - line34.start.y.value) ^ 2) - 5| :=
  ⟨by norm_num, lineLengthConstraint_error_spec.1 line34 5 (by norm_num)⟩

/-! ### C3 / C10: the length setter -/

lemma length_setter_num_neg {x : ℝ} (hx : x < 0) :
    length_setter (.num x) = .error "Length must be >= 0" := by
  have h : PyFloat.lt (.num x) (.num 0) := hx
  simp [length_setter, h]

lemma length_setter_num_nonneg {x : ℝ} (hx : 0 ≤ x) :
    length_setter (.num x) = .ok (.num x) := by
  have h : ¬ PyFloat.lt (.num x) (.num 0) := fun h => absurd h (not_lt.mpr hx)
  simp [length_setter, h]

lemma length_setter_nan : length_setter .nan = .ok .nan := by
  have h : ¬ PyFloat.lt .nan (.num 0) := fun h => h
  simp [length_setter, h]

/-- C3: constructing a `LineLengthConstraint`, or assigning its `length`,
with a strictly negative value raises a `ValueError` at that moment; every
non-negative value, 0 included, is accepted and stored unchanged. -/
theorem lineLength_negative_rejected :
    (∀ x : ℝ, x < 0 → length_setter (.num x) = .error "Length must be >= 0") ∧
    (∀ x : ℝ, 0 ≤ x → length_setter (.num x) = .ok (.num x)) ∧
    (∀ (l : Line) (x : ℝ), x < 0 →
      LineLengthConstraint.init l (.num x) = .error "Length must be >= 0") ∧
    (∀ (l : Line) (x : ℝ), 0 ≤ x →
      LineLengthConstraint.init l (.num x) = .ok (l, .num x)) := by
  refine ⟨fun x hx => length_setter_num_neg hx, fun x hx => length_setter_num_nonneg hx,
    fun l x hx => ?_, fun l x hx => ?_⟩
  · rw [LineLengthConstraint.init, length_setter_num_neg hx]
    rfl
  · rw [LineLengthConstraint.init, length_setter_num_nonneg hx]
    rfl

/-- Witness for C3 at values -1 (rejected) and 0 (accepted). -/
theorem lineLength_negative_rejected_witness :
    ((-1 : ℝ) < 0 ∧ length_setter (.num (-1)) = .error "Length must be >= 0") ∧
    ((0 : ℝ) ≤ 0 ∧
      LineLengthConstraint.init line34 (.num 0) = .ok (line34, .num 0)) :=
  ⟨⟨by norm_num, lineLength_negative_rejected.1 (-1) (by norm_num)⟩,
   ⟨le_refl 0, lineLength_negative_rejected.2.2.2 line34 0 (le_refl 0)⟩⟩

/-- C10: the length setter raises exactly when the float value compares
`< 0`; since every comparison against NaN is false, a NaN length passes the
check and is stored. -/
theorem lineLength_setter_error_iff :
    (∀ v : PyFloat, length_setter v = .error "Length must be >= 0" ↔
      PyFloat.lt v (.num 0)) ∧
    length_setter .nan = .ok .nan ∧
    ¬ PyFloat.lt .nan (.num 0) := by
  refine ⟨fun v => ?_, length_setter_nan, fun h => h⟩
  cases v with
  | nan =>
    rw [length_setter_nan]
    exact ⟨fun h => Except.noConfusion h, fun h => absurd h (fun h => h)⟩
  | num x =>
    rcases lt_or_le x 0 with hx | hx
    · rw [length_setter_num_neg hx]
      exact ⟨fun _ => hx, fun _ => rfl⟩
    · rw [length_setter_num_nonneg hx]
      exact ⟨fun h => Except.noConfusion h, fun h => absurd h (not_lt.mpr hx)⟩

/-! ### C4 -/

lemma pO_p11_dist : vecAbs (Point.sub pO p11) = Real.sqrt 2 := by
  show Real.sqrt (((0 : ℝ) - 1) ^ 2 + ((0 : ℝ) - 1) ^ 2) = Real.sqrt 2
  norm_num

/-- C4: for every pair of points and target distance D, the point-to-point
distance constraint's error is the absolute difference between the
Euclidean distance of the points and D; for (0,0) and (1,1) at target √2
the error is 0. -/
theorem p2pDistanceConstraint_error_spec :
    (∀ (a b : Point) (D : ℝ),
      PointToPointDistanceConstraint.error ⟨a, b, D⟩ =
        |Real.sqrt ((a.x.value - b.x.value) ^ 2 + (a.y.value - b.y.value) ^ 2) - D|) ∧
    PointToPointDistanceConstraint.error ⟨pO, p11, Real.sqrt 2⟩ = 0 := by
  refine ⟨fun a b D => rfl, ?_⟩
  show |vecAbs (Point.sub pO p11) - Real.sqrt 2| = 0
  rw [pO_p11_dist]
  norm_num

/-! ### C5 -/

/-- C5: each concrete constraint's error is a non-negative scalar, and it is
zero exactly when the measured quantity (line length, angle between the
lines, point distance) equals the stored target. -/
theorem constraint_error_nonneg_iff_satisfied :
    (∀ c : LineLengthConstraint,
      0 ≤ c.error ∧ (c.error = 0 ↔ c.line.hypot = c.length)) ∧
    (∀ c : AngularConstraint,
      0 ≤ c.error ∧ (c.error = 0 ↔ angle_between c.line_a c.line_b = c.angle)) ∧
    (∀ c : PointToPointDistanceConstraint,
      0 ≤ c.error ∧
        (c.error = 0 ↔ vecAbs (Point.sub c.point_a c.point_b) = c.distance)) := by
  refine ⟨fun c => ⟨abs_nonneg _, ?_⟩, fun c => ⟨abs_nonneg _, ?_⟩,
    fun c => ⟨abs_nonneg _, ?_⟩⟩
  · rw [LineLengthConstraint.error, abs_eq_zero, sub_eq_zero]
  · rw [AngularConstraint.error, abs_eq_zero, sub_eq_zero]
  · rw [PointToPointDistanceConstraint.error, abs_eq_zero, sub_eq_zero]

/-! ### C2 -/

lemma angle_between_xline_self : angle_between xline xline = 0 := by
  have hnot : ¬ (xline.hypot = 0 ∨ xline.hypot = 0) := by
    rw [xline_hypot]
    norm_num
  have hv : dot2 xline.vector xline.vector = 1 := by
    show ((1 : ℝ) - 0) * ((1 : ℝ) - 0) + ((0 : ℝ) - 0) * ((0 : ℝ) - 0) = 1
    norm_num
  rw [angle_between, if_neg hnot, xline_hypot, hv]
  norm_num [Real.arccos_one]

/-- C2: the angular constraint's error is the plain absolute difference
between `angle_between` of the two lines and the target, with no modulo-360
wraparound. The arccos-based angle lies in [0, 180], so the spec's
340-degree example is realized with the roles of target and actual swapped:
two coincident unit lines (actual angle 0) against target 350 give error
350, not the wrapped 10. -/
theorem angularConstraint_error_spec :
    (∀ (la lb : Line) (A : ℝ),
      AngularConstraint.error ⟨la, lb, A⟩ = |angle_between la lb - A|) ∧
    angle_between xline xline = 0 ∧
    AngularConstraint.error ⟨xline, xline, 350⟩ = 350 := by
  refine ⟨fun la lb A => rfl, angle_between_xline_self, ?_⟩
  show |angle_between xline xline - 350| = 350
  rw [angle_between_xline_self]
  norm_num

/-! ### C8 -/

/-- C8: the point-to-point distance constructor performs no validation: a
negative target distance is stored unchanged, and the resulting error is
then strictly positive in every parameter state (the measured distance is a
square root, hence non-negative). -/
theorem p2p_negative_distance_accepted :
    ∀ (a b : Point) (D : ℝ), D < 0 →
      (PointToPointDistanceConstraint.mk a b D).distance = D ∧
      0 < (PointToPointDistanceConstraint.mk a b D).error := by
  intro a b D hD
  refine ⟨rfl, ?_⟩
  have h0 : 0 ≤ vecAbs (Point.sub a b) := Real.sqrt_nonneg _
  have hlt : 0 < vecAbs (Point.sub a b) - D := by linarith
  show 0 < |vecAbs (Point.sub a b) - D|
  exact lt_of_lt_of_le hlt (le_abs_self _)

/-- Witness for C8 at the points (0,0), (1,1) and target distance -1. -/
theorem p2p_negative_distance_accepted_witness :
    (-1 : ℝ) < 0 ∧
    ((PointToPointDistanceConstraint.mk pO p11 (-1)).distance = -1 ∧
      0 < (PointToPointDistanceConstraint.mk pO p11 (-1)).error) :=
  ⟨by norm_num, p2p_negative_distance_accepted pO p11 (-1) (by norm_num)⟩

/-! ### C9 -/

/-- C9: evaluating the angular constraint's error on a degenerate
(zero-length) line does not crash: the guarded `angle_between` yields the
defined finite sentinel 180, so the error is `|180 - angle|`. -/
theorem angular_degenerate_is_sentinel :
    ∀ (la lb : Line) (A : ℝ), la.hypot = 0 ∨ lb.hypot = 0 →
      AngularConstraint.error ⟨la, lb, A⟩ = |(180 : ℝ) - A| := by
  intro la lb A h
  show |angle_between la lb - A| = _
  rw [angle_between, if_pos h]

/-- Witness for C9 at a zero-length line against a unit line, target 10. -/
theorem angular_degenerate_is_sentinel_witness :
    (zline.hypot = 0 ∨ xline.hypot = 0) ∧
    AngularConstraint.error ⟨zline, xline, 10⟩ = |(180 : ℝ) - 10| :=
  ⟨Or.inl zline_hypot,
   angular_degenerate_is_sentinel zline xline 10 (Or.inl zline_hypot)⟩

/-! ### C7 -/

lemma foldl_append_eq (ls : List (List Point)) :
    ∀ a : List Point, ls.foldl (· ++ ·) a = a ++ ls.flatten := by
  induction ls with
  | nil => intro a; simp
  | cons b ls ih => intro a; simp [ih, List.append_assoc]

/-- C7: for a non-empty primitive list, `points` is the concatenation of
each primitive's point list in registration order, duplicates kept. -/
theorem abstract_points_is_concat (prims : List Primitive) (hne : prims ≠ []) :
    AbstractConstraint.points prims = some ((prims.map Primitive.points).flatten) := by
  match prims with
  | [] => exact absurd rfl hne
  | p :: ps =>
    show some ((ps.map Primitive.points).foldl (· ++ ·) (Primitive.points p)) = _
    rw [foldl_append_eq]
    simp

/-- Witness for C7 at a one-line primitive list. -/
theorem abstract_points_is_concat_witness :
    [Primitive.line xline] ≠ [] ∧
    AbstractConstraint.points [Primitive.line xline] =
      some (([Primitive.line xline].map Primitive.points).flatten) :=
  ⟨List.cons_ne_nil _ _,
   abstract_points_is_concat [Primitive.line xline] (List.cons_ne_nil _ _)⟩

/-! ### C6 -/

lemma xyFlatten_cons (p : Point) (ps : List Point) :
    xyFlatten (p :: ps) = p.x :: p.y :: xyFlatten ps := by
  simp [xyFlatten]

lemma params_eq_fold (pts : List Point) :
    AbstractConstraint.params pts = (xyFlatten pts).foldl addIfAbsent [] := by
  suffices h : ∀ acc, pts.foldl (fun acc p => addIfAbsent (addIfAbsent acc p.x) p.y) acc =
      (xyFlatten pts).foldl addIfAbsent acc from h []
  induction pts with
  | nil => intro acc; rfl
  | cons p ps ih => intro acc; rw [xyFlatten_cons]; exact ih _

lemma mem_addIfAbsent_left {acc : List Parameter} {r q : Parameter} (h : r ∈ acc) :
    r ∈ addIfAbsent acc q := by
  unfold addIfAbsent
  split
  · exact h
  · exact List.mem_append_left _ h

lemma foldl_addIfAbsent_mono (l : List Parameter) :
    ∀ {acc : List Parameter} {r : Parameter}, r ∈ acc → r ∈ l.foldl addIfAbsent acc := by
  induction l with
  | nil => intro acc r h; exact h
  | cons a l ih => intro acc r h; exact ih (mem_addIfAbsent_left h)

lemma any_id_eq_false {acc : List Parameter} {n : ℕ}
    (h : n ∉ acc.map Parameter.id) : acc.any (fun r => r.id == n) = false := by
  rw [List.any_eq_false]
  intro r hr hrn
  exact h (List.mem_map.mpr ⟨r, hr, by simpa using hrn⟩)

lemma addIfAbsent_of_not_mem {acc : List Parameter} {q : Parameter}
    (h : q.id ∉ acc.map Parameter.id) : addIfAbsent acc q = acc ++ [q] := by
  unfold addIfAbsent
  rw [any_id_eq_false h]
  simp

lemma nodup_foldl_addIfAbsent (l : List Parameter) :
    ∀ acc : List Parameter, (acc.map Parameter.id).Nodup →
      ((l.foldl addIfAbsent acc).map Parameter.id).Nodup := by
  induction l with
  | nil => intro acc h; exact h
  | cons a l ih =>
    intro acc h
    apply ih
    unfold addIfAbsent
    split
    · exact h
    · rename_i hany
      have hnotin : a.id ∉ acc.map Parameter.id := by
        intro hmem
        rcases List.mem_map.mp hmem with ⟨r, hr, hrid⟩
        exact hany (List.any_eq_true.mpr ⟨r, hr, by simp [hrid]⟩)
      rw [List.map_append, List.nodup_append]
      refine ⟨h, by simp, ?_⟩
      intro n hn hn'
      simp only [List.map_cons, List.map_nil, List.mem_singleton] at hn'
      exact hnotin (hn' ▸ hn)

lemma sublist_foldl_addIfAbsent (l : List Parameter) :
    ∀ acc : List Parameter, List.Sublist (l.foldl addIfAbsent acc) (acc ++ l) := by
  induction l with
  | nil => intro acc; simp
  | cons a l ih =>
    intro acc
    have h1 := ih (addIfAbsent acc a)
    have h2 : List.Sublist (addIfAbsent acc a ++ l) (acc ++ a :: l) := by
      unfold addIfAbsent
      split
      · exact List.Sublist.append_left (List.sublist_cons_self a l) acc
      · rw [List.append_assoc]
        exact List.Sublist.refl _
    exact h1.trans h2

lemma exists_id_foldl_addIfAbsent (l : List Parameter) :
    ∀ (acc : List Parameter) (q : Parameter), q ∈ l →
      ∃ r ∈ l.foldl addIfAbsent acc, r.id = q.id := by
  induction l with
  | nil => intro acc q h; exact absurd h (List.not_mem_nil q)
  | cons a l ih =>
    intro acc q hq
    rcases List.mem_cons.mp hq with rfl | hmem
    · by_cases hany : acc.any (fun r => r.id == q.id) = true
      · rcases List.any_eq_true.mp hany with ⟨r, hr, hrid⟩
        exact ⟨r, foldl_addIfAbsent_mono l (mem_addIfAbsent_left hr), by simpa using hrid⟩
      · have hmem' : q ∈ addIfAbsent acc q := by
          unfold addIfAbsent
          rw [Bool.of_not_eq_true hany]
          simp
        exact ⟨q, foldl_addIfAbsent_mono l hmem', rfl⟩
    · exact ih _ q hmem

/-- C6: `params` never contains two parameters of the same identity, is an
order-preserving subsequence of the points' x,y parameters in first-seen
order, covers every parameter identity occurring in the points, and a point
whose two parameters are both fresh contributes its x parameter immediately
before its y parameter. -/
theorem abstract_params_dedup (pts : List Point) :
    ((AbstractConstraint.params pts).map Parameter.id).Nodup ∧
    List.Sublist (AbstractConstraint.params pts) (xyFlatten pts) ∧
    (∀ q ∈ xyFlatten pts, ∃ r ∈ AbstractConstraint.params pts, r.id = q.id) ∧
    (∀ p : Point, p.x.id ∉ (AbstractConstraint.params pts).map Parameter.id →
      p.y.id ∉ (AbstractConstraint.params pts).map Parameter.id →
      p.y.id ≠ p.x.id →
      AbstractConstraint.params (pts ++ [p]) =
        AbstractConstraint.params pts ++ [p.x, p.y]) := by
  refine ⟨?_, ?_, ?_, ?_⟩
  · rw [params_eq_fold]
    exact nodup_foldl_addIfAbsent _ [] (by simp)
  · rw [params_eq_fold]
    simpa using sublist_foldl_addIfAbsent (xyFlatten pts) []
  · intro q hq
    rw [params_eq_fold]
    exact exists_id_foldl_addIfAbsent _ [] q hq
  · intro p hx hy hyx
    rw [params_eq_fold] at hx hy
    rw [params_eq_fold, params_eq_fold]
    have hflat : xyFlatten (pts ++ [p]) = xyFlatten pts ++ [p.x, p.y] := by
      simp [xyFlatten]
    rw [hflat, List.foldl_append]
    show addIfAbsent (addIfAbsent ((xyFlatten pts).foldl addIfAbsent []) p.x) p.y = _
    rw [addIfAbsent_of_not_mem hx]
    have hy' : p.y.id ∉ ((xyFlatten pts).foldl addIfAbsent [] ++ [p.x]).map Parameter.id := by
      rw [List.map_append]
      intro hmem
      rcases List.mem_append.mp hmem with hmem' | hmem'
      · exact hy hmem'
      · simp only [List.map_cons, List.map_nil, List.mem_singleton] at hmem'
        exact hyx hmem'
    rw [addIfAbsent_of_not_mem hy', List.append_assoc]
    rfl

/-- Witness for C6: appending the fresh point (1,1) after the origin point
appends its x then y parameters adjacently. -/
theorem abstract_params_dedup_witness :
    p11.x.id ∉ (AbstractConstraint.params [pO]).map Parameter.id ∧
    p11.y.id ∉ (AbstractConstraint.params [pO]).map Parameter.id ∧
    p11.y.id ≠ p11.x.id ∧
    AbstractConstraint.params ([pO] ++ [p11]) =
      AbstractConstraint.params [pO] ++ [p11.x, p11.y] := by
  have h1 : p11.x.id ∉ (AbstractConstraint.params [pO]).map Parameter.id := by
    simp [AbstractConstraint.params, addIfAbsent, pO, p11]
  have h2 : p11.y.id ∉ (AbstractConstraint.params [pO]).map Parameter.id := by
    simp [AbstractConstraint.params, addIfAbsent, pO, p11]
  have h3 : p11.y.id ≠ p11.x.id := by simp [p11]
  exact ⟨h1, h2, h3, (abstract_params_dedup [pO]).2.2.2 p11 h1 h2 h3⟩
